import Mathlib

/-!
Verification of the network-monitor probe-sweep scheduler.

The Go program (src/main.go) ships two variants separated in the file: a
concurrent variant whose direct-run loop fans one goroutine out per non-self
peer, collects successes on a `results` channel and failures on an `errs`
channel, and a simpler variant that fires probes without collecting results.
This development shallowly embeds both: external effects (command execution,
JSON parsing) are passed in as explicit values or functions, and the
functions below are line-by-line functional translations of the Go source.
-/

namespace NetworkMonitor

/-- Ways the external ping invocation can fail, as seen by `pingNode` through
the error value of `cmd.Output()`: target unreachable, invalid interface,
the `-W` timeout, context cancellation (the cycle deadline killing the
process), or any other error detail. -/
inductive ProbeError
  | unreachable
  | invalidInterface
  | timeout
  | cancelled
  | other (detail : String)
deriving DecidableEq

/-- Result of running one of the Go functions: a normal return value, a
non-fatal error return (logged and handed back to the caller), or a call to
`logger.Fatalf` / `log.Fatalf`, which terminates the whole process. -/
inductive ProcOutcome (α : Type)
  | ok (value : α)
  | err (e : ProbeError)
  | fatal (msg : String)
deriving DecidableEq

/-- Whether the outcome is a process-terminating `Fatalf`. -/
def ProcOutcome.isFatal {α : Type} : ProcOutcome α → Bool
  | ProcOutcome.fatal _ => true
  | _ => false

/-- Whitespace test used by Go's `strings.Fields` (`unicode.IsSpace` over the
Latin-1 range: space, tab, newline, vertical tab, form feed, carriage return,
NEL and NBSP). -/
def isSpaceChar (c : Char) : Bool :=
  c == ' ' || c == '\t' || c == '\n' || c == '\x0b' || c == '\x0c' || c == '\r' ||
    c == '\u0085' || c == '\u00a0'

/-- Accumulator pass of `strings.Fields`: `acc` is the word currently being
built (in order); a space flushes it, end of input flushes the last word. -/
def fieldsAux : List Char → List Char → List (List Char)
  | [], acc => if acc = [] then [] else [acc]
  | c :: cs, acc =>
    if isSpaceChar c then
      if acc = [] then fieldsAux cs [] else acc :: fieldsAux cs []
    else fieldsAux cs (acc ++ [c])

/-- Embedding of Go's `strings.Fields`: split a string around runs of
whitespace, returning the (possibly empty) list of words. -/
def fields (s : String) : List String :=
  (fieldsAux s.data []).map fun cs => String.mk cs

/-- Embedding of the `Node` JSON record (src/main.go lines 32 to 34). -/
structure Node where
  dataIp : String
deriving DecidableEq

/-- Embedding of the `Cluster` JSON record (src/main.go lines 36 to 38). -/
structure Cluster where
  nodes : List Node
deriving DecidableEq

/-- Embedding of the `Status` JSON record (src/main.go lines 40 to 42). -/
structure Status where
  cluster : Cluster
deriving DecidableEq

/-- Embedding of `getNodes` (src/main.go lines 45 to 60). The result of
`exec.Command(pxctlBin, "status", "-j").Output()` is passed in as
`pxctlOut` (`none` when the command fails), and `json.Unmarshal` as
`parseStatus` (`none` when parsing fails). Both failure branches call
`logger.Fatalf`; otherwise the node list is the `DataIp` of each node. -/
def getNodes (pxctlOut : Option String) (parseStatus : String → Option Status) :
    ProcOutcome (List String) :=
  match pxctlOut with
  | none => ProcOutcome.fatal "Failed to execute pxctl status command"
  | some out =>
    match parseStatus out with
    | none => ProcOutcome.fatal "Failed to parse JSON output"
    | some status => ProcOutcome.ok (status.cluster.nodes.map fun node => node.dataIp)

/-- Embedding of `getLocalIP` (src/main.go lines 63 to 74). The result of
`exec.Command("hostname", "-I").Output()` is passed in as `hostnameOut`
(`none` when the command fails). A failed command or an output with no
whitespace-separated field calls `logger.Fatalf`; otherwise the local IP is
the first field. -/
def getLocalIP (hostnameOut : Option String) : ProcOutcome String :=
  match hostnameOut with
  | none => ProcOutcome.fatal "Failed to execute hostname command"
  | some out =>
    match fields out with
    | [] => ProcOutcome.fatal "No IP address returned by hostname command"
    | ip :: _ => ProcOutcome.ok ip

/-- Embedding of the local-address selection in `main` (src/main.go lines 230
to 234): a non-empty `-ip` flag is taken verbatim, otherwise `getLocalIP`
runs on the `hostname -I` output. -/
def determineLocalIP (ipFlag : String) (hostnameOut : Option String) :
    ProcOutcome String :=
  if ipFlag = "" then getLocalIP hostnameOut else ProcOutcome.ok ipFlag

/-- The `pingTimeout` constant of `pingNode` (src/main.go line 78), in
seconds. -/
def pingTimeout : Nat := 5

/-- The cycle-scoped cancellation bound armed by the scheduler: the goroutine
at src/main.go lines 247 to 250 cancels the cycle context after
`5 * time.Minute`, expressed here in seconds. -/
def cycleDeadlineSeconds : Nat := 5 * 60

/-- The command string built by the concurrent variant's `pingNode`
(src/main.go line 79): `fmt.Sprintf("ping -I %s -c 1 -W %d %s",
interfaceName, pingTimeout, node)`. -/
def pingCmd (interfaceName node : String) : String :=
  "ping -I " ++ interfaceName ++ " -c 1 -W " ++ toString pingTimeout ++ " " ++ node

/-- The command string built by the simple variant's `pingNode` (src/main.go
line 362): `fmt.Sprintf("ping -I %s -c 1 %s", interfaceName, node)`. -/
def pingCmdSimple (interfaceName node : String) : String :=
  "ping -I " ++ interfaceName ++ " -c 1 " ++ node

/-- Embedding of the concurrent variant's `pingNode` (src/main.go lines 77 to
88). The outcome of `cmd.Output()` on the ping command is passed in as
`execResult`. On error the function logs with `Errorf` (not `Fatalf`) and
returns the error to its caller; on success it returns the output. -/
def pingNode (execResult : Except ProbeError String) : ProcOutcome String :=
  match execResult with
  | Except.error e => ProcOutcome.err e
  | Except.ok out => ProcOutcome.ok out

/-- Observable events of the direct-run loop, in program order: the single
startup membership fetch, a hypothetical reported fetch failure, the
"skipping local node" log line, a logged probe success, a logged probe
failure, and the inter-cycle sleep. -/
inductive Event
  | fetchMembership
  | fetchFailureReport (msg : String)
  | skipLocal
  | logResult (out : String)
  | logPingFailed (e : ProbeError)
  | sleep (seconds : Nat)
deriving DecidableEq

/-- Embedding of the simple variant's `pingNode` (src/main.go lines 360 to
370) as the log events it emits: on error it logs the failure with
`log.Printf` and returns, on success it prints the output; it never calls
`Fatalf`. -/
def pingNodeSimple (execResult : Except ProbeError String) : List Event :=
  match execResult with
  | Except.error e => [Event.logPingFailed e]
  | Except.ok out => [Event.logResult out]

/-- Embedding of the fan-out of one cycle of the concurrent variant
(src/main.go lines 255 to 272): walk the peer list, skip every entry equal
to `localIP`, and give every other peer the `pingNode` outcome of its own
probe. `probe` abstracts the external world seen by each goroutine's
`cmd.Output()`, covering natural completion as well as `-W` timeout and
cycle-deadline cancellation (which surface as `Except.error` values). -/
def sweepCycle (nodes : List String) (localIP : String)
    (probe : String → Except ProbeError String) :
    List (String × ProcOutcome String) :=
  match nodes with
  | [] => []
  | node :: rest =>
    if localIP = node then sweepCycle rest localIP probe
    else (node, pingNode (probe node)) :: sweepCycle rest localIP probe

/-- Contents of the `results` channel: the outputs of the successful probes
(src/main.go lines 265 to 269: a goroutine sends `res` exactly when `err`
is nil). -/
def successOutputs (outcomes : List (String × ProcOutcome String)) : List String :=
  outcomes.filterMap fun entry =>
    match entry.2 with
    | ProcOutcome.ok out => some out
    | _ => none

/-- Contents of the `errs` channel: the errors of the failed probes
(src/main.go lines 265 to 269: a goroutine sends `err` exactly when it is
not nil). -/
def failureErrors (outcomes : List (String × ProcOutcome String)) : List ProbeError :=
  outcomes.filterMap fun entry =>
    match entry.2 with
    | ProcOutcome.err e => some e
    | _ => none

/-- Embedding of the reporting step (src/main.go lines 280 to 285): the
`results` channel is drained and logged in full, then the `errs` channel is
drained and logged. The two lists are the channel contents in whatever
arrival order the concurrent probes produced. -/
def reportEvents (resultsChan : List String) (errsChan : List ProbeError) :
    List Event :=
  resultsChan.map Event.logResult ++ errsChan.map Event.logPingFailed

/-- Events of one iteration of the direct-run loop of the concurrent variant
(src/main.go lines 243 to 288): the skip log lines of the fan-out, the
report of the collected outcomes, then the `time.Sleep` of `frequency`
seconds. -/
def cycleEvents (nodes : List String) (localIP : String) (frequency : Nat)
    (probe : String → Except ProbeError String) : List Event :=
  let outcomes := sweepCycle nodes localIP probe
  ((nodes.filter fun node => localIP == node).map fun _ => Event.skipLocal)
    ++ reportEvents (successOutputs outcomes) (failureErrors outcomes)
    ++ [Event.sleep frequency]

/-- The peer list the loop reads on a given cycle. In the source the global
`nodes` slice is filled once at startup (src/main.go lines 236 to 238 run
`getNodes` only when `nodes == nil`) and the loop body never reassigns it,
so every cycle reads the startup list. -/
def peerSetForCycle (startupNodes : List String) (_cycle : Nat) : List String :=
  startupNodes

/-- Event trace of a run of `main` in direct mode through `numCycles`
iterations: the single startup `getNodes` call followed by each cycle's
events. `probe` gives, per cycle, the external world seen by that cycle's
goroutines. -/
def mainTrace (startupNodes : List String) (localIP : String) (frequency : Nat)
    (probe : Nat → String → Except ProbeError String) (numCycles : Nat) :
    List Event :=
  Event.fetchMembership ::
    List.flatten ((List.range numCycles).map fun k =>
      cycleEvents (peerSetForCycle startupNodes k) localIP frequency (probe k))

/-- Whether an event is a membership-source interaction (a fetch or a
reported fetch failure). -/
def isMembershipEvent : Event → Bool
  | Event.fetchMembership => true
  | Event.fetchFailureReport _ => true
  | _ => false

/-- Whether an event is a logged probe success. -/
def isLogResult : Event → Bool
  | Event.logResult _ => true
  | _ => false

/-- Whether an event is a logged probe failure. -/
def isLogPingFailed : Event → Bool
  | Event.logPingFailed _ => true
  | _ => false

/-- Control-flow outcome of one pass through a loop body: continue with the
next iteration counter, or leave the loop. -/
inductive LoopStep
  | next (iter : Nat)
  | exit
deriving DecidableEq

/-- Control flow of the body of the concurrent variant's direct-run loop
(src/main.go lines 243 to 288): the body arms the cycle context, fans out,
collects, reports and sleeps; no statement breaks out of or returns from the
loop, so every pass continues to the next iteration. -/
def directLoopBody (nodes : List String) (localIP : String) (frequency : Nat)
    (probe : String → Except ProbeError String) (iter : Nat) : LoopStep :=
  let _trace := cycleEvents nodes localIP frequency probe
  LoopStep.next (iter + 1)

/-- Control flow of the body of the simple variant's direct-run loop
(src/main.go lines 466 to 475): fire one goroutine per non-self peer, sleep,
continue; here as well no statement leaves the loop. -/
def simpleLoopBody (_nodes : List String) (_localIP : String) (_frequency : Nat)
    (iter : Nat) : LoopStep :=
  LoopStep.next (iter + 1)

/-- Iterate the direct-run loop body `k` times from iteration 0, stopping
early only if some pass exits. -/
def runLoop (nodes : List String) (localIP : String) (frequency : Nat)
    (probe : Nat → String → Except ProbeError String) : Nat → LoopStep
  | 0 => LoopStep.next 0
  | k + 1 =>
    match runLoop nodes localIP frequency probe k with
    | LoopStep.exit => LoopStep.exit
    | LoopStep.next iter => directLoopBody nodes localIP frequency (probe iter) iter

/-- The two run modes of `main` (src/main.go lines 240 to 242): without `-r`
the program installs the systemd service, with `-r` it enters the direct-run
monitoring loop. -/
inductive RunMode
  | installServiceMode
  | directLoopMode
deriving DecidableEq

/-- Mode dispatch of `main` on the `-r` flag (src/main.go line 240). -/
def mainMode (r : Bool) : RunMode :=
  if r then RunMode.directLoopMode else RunMode.installServiceMode

/-- First argument following the first occurrence of `flagName` in a token
list, as a shell would pair a flag with its value. -/
def argAfter (flagName : String) : List String → Option String
  | [] => none
  | tok :: rest => if tok = flagName then rest.head? else argAfter flagName rest

/-- C6: the per-probe timeout never exceeds the cycle deadline: the 5-second
`pingTimeout` used by `pingNode` is at most the 5-minute cycle-scoped
cancellation bound armed by the scheduler, so the cycle deadline is the
authoritative outer bound on any in-flight probe. -/
theorem pingTimeout_le_cycleDeadline : pingTimeout ≤ cycleDeadlineSeconds := by
  decide

/-- Fact: a non-space character extends the word being accumulated. -/
theorem fieldsAux_cons_char (c : Char) (cs acc : List Char)
    (h : isSpaceChar c = false) :
    fieldsAux (c :: cs) acc = fieldsAux cs (acc ++ [c]) := by
  simp [fieldsAux, h]

/-- Fact: a space character flushes a non-empty accumulated word. -/
theorem fieldsAux_cons_space (c : Char) (cs acc : List Char)
    (hc : isSpaceChar c = true) (h : acc ≠ []) :
    fieldsAux (c :: cs) acc = acc :: fieldsAux cs [] := by
  simp [fieldsAux, hc, h]

/-- Fact: end of input flushes a non-empty accumulated word. -/
theorem fieldsAux_nil_of_ne (acc : List Char) (h : acc ≠ []) :
    fieldsAux [] acc = [acc] := by
  simp [fieldsAux, h]

/-- Fact: consuming a space-free prefix just appends it to the accumulator. -/
theorem fieldsAux_append_word (w cs acc : List Char)
    (hw : ∀ c ∈ w, isSpaceChar c = false) :
    fieldsAux (w ++ cs) acc = fieldsAux cs (acc ++ w) := by
  induction w generalizing acc with
  | nil => simp
  | cons c w ih =>
    have hc : isSpaceChar c = false := hw c (by simp)
    rw [List.cons_append, fieldsAux_cons_char c _ _ hc,
      ih _ (fun d hd => hw d (by simp [hd]))]
    rw [List.append_assoc, List.singleton_append]

/-- Fact: a non-empty space-free word followed by a space is emitted as one
field. -/
theorem fieldsAux_word_space (w cs : List Char)
    (hw : ∀ c ∈ w, isSpaceChar c = false) (hne : w ≠ []) :
    fieldsAux (w ++ ' ' :: cs) [] = w :: fieldsAux cs [] := by
  rw [fieldsAux_append_word w _ [] hw, List.nil_append,
    fieldsAux_cons_space ' ' cs w rfl hne]

/-- Fact: a non-empty space-free word at end of input is emitted as one
field. -/
theorem fieldsAux_word_end (w : List Char)
    (hw : ∀ c ∈ w, isSpaceChar c = false) (hne : w ≠ []) :
    fieldsAux w [] = [w] := by
  have h := fieldsAux_append_word w [] [] hw
  rw [List.append_nil] at h
  rw [h, List.nil_append, fieldsAux_nil_of_ne w hne]

/-- Fact: a successful probe outcome lands on the `results` side. -/
theorem successOutputs_cons_ok (node out : String)
    (rest : List (String × ProcOutcome String)) :
    successOutputs ((node, ProcOutcome.ok out) :: rest) = out :: successOutputs rest := rfl

/-- Fact: a failed probe outcome is invisible to the `results` side. -/
theorem successOutputs_cons_err (node : String) (e : ProbeError)
    (rest : List (String × ProcOutcome String)) :
    successOutputs ((node, ProcOutcome.err e) :: rest) = successOutputs rest := rfl

/-- Fact: a successful probe outcome is invisible to the `errs` side. -/
theorem failureErrors_cons_ok (node out : String)
    (rest : List (String × ProcOutcome String)) :
    failureErrors ((node, ProcOutcome.ok out) :: rest) = failureErrors rest := rfl

/-- Fact: a failed probe outcome lands on the `errs` side. -/
theorem failureErrors_cons_err (node : String) (e : ProbeError)
    (rest : List (String × ProcOutcome String)) :
    failureErrors ((node, ProcOutcome.err e) :: rest) = e :: failureErrors rest := rfl

/-- Fact: a non-skipped peer contributes its own `pingNode` outcome to the
sweep. -/
theorem sweepCycle_cons_keep (node : String) (rest : List String) (localIP : String)
    (probe : String → Except ProbeError String) (h : ¬ localIP = node) :
    sweepCycle (node :: rest) localIP probe
      = (node, pingNode (probe node)) :: sweepCycle rest localIP probe := by
  simp [sweepCycle, h]

/-- C1: for every cycle, every peer in the cycle's peer set other than the
local address yields exactly one `ProbeOutcome` — a success on the `results`
channel or a failure on the `errs` channel — even when the probe never
completes naturally (`probe` ranges over all behaviours, including the
`timeout` and `cancelled` errors produced by the `-W` bound and the
five-minute cycle context), so the outcomes collected are exactly one per
non-self peer and their total count equals the number of non-self peers. -/
theorem sweepCycle_completeness (nodes : List String) (localIP : String)
    (probe : String → Except ProbeError String) :
    (sweepCycle nodes localIP probe).map Prod.fst
        = nodes.filter (fun node => !(localIP == node))
    ∧ (successOutputs (sweepCycle nodes localIP probe)).length
        + (failureErrors (sweepCycle nodes localIP probe)).length
        = (nodes.filter (fun node => !(localIP == node))).length := by
  induction nodes with
  | nil => exact ⟨rfl, rfl⟩
  | cons node rest ih =>
    obtain ⟨ih1, ih2⟩ := ih
    by_cases h : localIP = node
    · have hb : (localIP == node) = true := by simp [h]
      constructor
      · simpa [sweepCycle, h, List.filter_cons, hb] using ih1
      · simpa [sweepCycle, h, List.filter_cons, hb] using ih2
    · have hb : (localIP == node) = false := by simp [h]
      rw [sweepCycle_cons_keep node rest localIP probe h]
      constructor
      · simp [List.filter_cons, hb, ih1]
      · cases hp : probe node with
        | ok out =>
          simp only [pingNode, successOutputs_cons_ok, failureErrors_cons_ok,
            List.filter_cons, hb, Bool.not_false, if_pos, List.length_cons]
          omega
        | error e =>
          simp only [pingNode, successOutputs_cons_err, failureErrors_cons_err,
            List.filter_cons, hb, Bool.not_false, if_pos, List.length_cons]
          omega

/-- C2: for every cycle, no probe is launched against (and no outcome is
recorded for) a peer address equal to the local address: every element of
the peer list equal to `localIP` is skipped before fan-out, so every entry
of the sweep has a peer different from `localIP`. -/
theorem sweepCycle_self_exclusion (nodes : List String) (localIP : String)
    (probe : String → Except ProbeError String) :
    (sweepCycle nodes localIP probe).all (fun entry => !(entry.1 == localIP)) = true := by
  induction nodes with
  | nil => rfl
  | cons node rest ih =>
    by_cases h : localIP = node
    · simpa [sweepCycle, h] using ih
    · have hne : (node == localIP) = false :=
        beq_eq_false_iff_ne.mpr (fun hEq => h hEq.symm)
      rw [sweepCycle_cons_keep node rest localIP probe h]
      simp [List.all_cons, hne, ih]

/-- Fact: the outcome recorded for a non-self member of the peer list is
exactly the `pingNode` translation of that peer's own probe result,
independent of every other peer's probe. -/
theorem lookup_sweepCycle (nodes : List String) (localIP peer : String)
    (probe : String → Except ProbeError String) (hMem : peer ∈ nodes)
    (hSelf : peer ≠ localIP) :
    List.lookup peer (sweepCycle nodes localIP probe)
      = some (pingNode (probe peer)) := by
  induction nodes with
  | nil => cases hMem
  | cons node rest ih =>
    by_cases h : localIP = node
    · have hpn : peer ≠ node := fun hEq => hSelf (hEq.trans h.symm)
      have hMem : peer ∈ rest := by
        cases hMem with
        | head => exact absurd rfl hpn
        | tail _ hm => exact hm
      simpa [sweepCycle, h] using ih hMem
    · rw [sweepCycle_cons_keep node rest localIP probe h]
      by_cases hpn : peer = node
      · subst hpn
        simp [List.lookup]
      · have hMem : peer ∈ rest := by
          cases hMem with
          | head => exact absurd rfl hpn
          | tail _ hm => exact hm
        have hb : (peer == node) = false := beq_eq_false_iff_ne.mpr hpn
        simp [List.lookup, hb, ih hMem]

/-- C4: for every peer and every probe failure cause (unreachable target,
invalid interface, `-W` timeout, context cancellation), `pingNode` returns
the failure to its caller instead of terminating the process (it never
reaches a `Fatalf`); the simple variant likewise only logs the failure; and
each non-self peer's recorded outcome is the `pingNode` image of its own
probe result, so one peer's failure neither aborts the sweep nor disturbs
the other peers' outcomes. -/
theorem pingNode_failure_nonfatal (e : ProbeError) (r : Except ProbeError String)
    (nodes : List String) (localIP peer : String)
    (probe : String → Except ProbeError String)
    (hMem : peer ∈ nodes) (hSelf : peer ≠ localIP) :
    pingNode (Except.error e) = ProcOutcome.err e
    ∧ (pingNode r).isFatal = false
    ∧ pingNodeSimple (Except.error e) = [Event.logPingFailed e]
    ∧ List.lookup peer (sweepCycle nodes localIP probe)
        = some (pingNode (probe peer)) := by
  refine ⟨rfl, ?_, rfl, lookup_sweepCycle nodes localIP peer probe hMem hSelf⟩
  cases r <;> rfl

/-- Witness for C4 at a concrete sweep in which every probe fails. -/
theorem pingNode_failure_nonfatal_witness :
    ("10.0.0.1" : String) ∈ ["10.0.0.1", "10.0.0.2"]
    ∧ ("10.0.0.1" : String) ≠ "10.0.0.2"
    ∧ (pingNode (Except.error ProbeError.timeout) = ProcOutcome.err ProbeError.timeout
        ∧ (pingNode (Except.error ProbeError.cancelled)).isFatal = false
        ∧ pingNodeSimple (Except.error ProbeError.timeout)
            = [Event.logPingFailed ProbeError.timeout]
        ∧ List.lookup "10.0.0.1"
            (sweepCycle ["10.0.0.1", "10.0.0.2"] "10.0.0.2"
              (fun _ => Except.error ProbeError.unreachable))
            = some (pingNode (Except.error ProbeError.unreachable))) :=
  ⟨by decide, by decide,
    pingNode_failure_nonfatal ProbeError.timeout (Except.error ProbeError.cancelled)
      ["10.0.0.1", "10.0.0.2"] "10.0.0.2" "10.0.0.1"
      (fun _ => Except.error ProbeError.unreachable) (by decide) (by decide)⟩

/-- C5: every startup failure mode — the `hostname -I` command failing, the
command returning no address, the `pxctl status -j` command failing, or its
output failing to parse — reaches a `Fatalf`, which halts the process at
startup before the monitoring loop is entered. -/
theorem startup_failures_are_fatal (hostnameOut pxctlOut : String)
    (parseStatus : String → Option Status)
    (hEmpty : fields hostnameOut = [])
    (hParse : parseStatus pxctlOut = none) :
    (getLocalIP none).isFatal = true
    ∧ (getLocalIP (some hostnameOut)).isFatal = true
    ∧ (getNodes none parseStatus).isFatal = true
    ∧ (getNodes (some pxctlOut) parseStatus).isFatal = true := by
  refine ⟨rfl, ?_, rfl, ?_⟩
  · simp [getLocalIP, hEmpty, ProcOutcome.isFatal]
  · simp [getNodes, hParse, ProcOutcome.isFatal]

/-- Witness for C5 at concrete failing startup inputs. -/
theorem startup_failures_are_fatal_witness :
    fields "" = []
    ∧ ((getLocalIP none).isFatal = true
        ∧ (getLocalIP (some "")).isFatal = true
        ∧ (getNodes none (fun _ => none)).isFatal = true
        ∧ (getNodes (some "not json") (fun _ => none)).isFatal = true) :=
  ⟨rfl, startup_failures_are_fatal "" "not json" (fun _ => none) rfl rfl⟩

/-- C10: the local address is determined exactly as the code does it: a
non-empty `-ip` flag is taken verbatim with no hostname lookup (the result
is `ok ipFlag` whatever the `hostname -I` outcome, including a failed
command), while an empty flag takes the first whitespace-separated token of
the `hostname -I` output, and an output with no tokens is a startup-fatal
error. -/
theorem determineLocalIP_spec (ipFlag : String) (hostnameOut : Option String)
    (out1 out2 ip : String) (rest : List String)
    (hFlag : ipFlag ≠ "") (h1 : fields out1 = ip :: rest) (h2 : fields out2 = []) :
    determineLocalIP ipFlag hostnameOut = ProcOutcome.ok ipFlag
    ∧ determineLocalIP "" (some out1) = ProcOutcome.ok ip
    ∧ (determineLocalIP "" (some out2)).isFatal = true := by
  refine ⟨?_, ?_, ?_⟩
  · simp [determineLocalIP, hFlag]
  · simp [determineLocalIP, getLocalIP, h1]
  · simp [determineLocalIP, getLocalIP, h2, ProcOutcome.isFatal]

/-- Witness for C10: the flag taken verbatim even when `hostname -I` failed,
the first token of a two-address output, and a whitespace-only output being
fatal. -/
theorem determineLocalIP_spec_witness :
    ("10.9.9.9" : String) ≠ ""
    ∧ fields "10.0.0.7 192.168.0.1\n" = ["10.0.0.7", "192.168.0.1"]
    ∧ fields " " = []
    ∧ (determineLocalIP "10.9.9.9" none = ProcOutcome.ok "10.9.9.9"
        ∧ determineLocalIP "" (some "10.0.0.7 192.168.0.1\n") = ProcOutcome.ok "10.0.0.7"
        ∧ (determineLocalIP "" (some " ")).isFatal = true) :=
  ⟨by decide, rfl, rfl,
    determineLocalIP_spec "10.9.9.9" none "10.0.0.7 192.168.0.1\n" " " "10.0.0.7"
      ["192.168.0.1"] (by decide) rfl rfl⟩

/-- Fact: mapping a function whose images never satisfy `p` yields count
zero. -/
theorem countP_map_zero {α β : Type} (f : α → β) (p : β → Bool) (l : List α)
    (h : ∀ a, p (f a) = false) : (l.map f).countP p = 0 := by
  induction l with
  | nil => rfl
  | cons a l ih => simp [List.map_cons, List.countP_cons, h, ih]

/-- Fact: flattening lists that each contain no `p`-element yields count
zero. -/
theorem countP_flatten_zero {α : Type} (p : α → Bool) (ls : List (List α))
    (h : ∀ l ∈ ls, l.countP p = 0) : ls.flatten.countP p = 0 := by
  induction ls with
  | nil => rfl
  | cons l ls ih =>
    rw [List.flatten_cons, List.countP_append, h l (by simp),
      ih (fun x hx => h x (by simp [hx]))]

/-- Fact: the body of the direct-run loop performs no membership-source
interaction: a cycle's events contain neither a fetch nor a reported fetch
failure. -/
theorem cycleEvents_no_membership (nodes : List String) (localIP : String)
    (frequency : Nat) (probe : String → Except ProbeError String) :
    (cycleEvents nodes localIP frequency probe).countP isMembershipEvent = 0 := by
  simp only [cycleEvents, reportEvents, List.countP_append]
  rw [countP_map_zero _ _ _ (fun _ => rfl),
    countP_map_zero _ _ _ (fun _ => rfl),
    countP_map_zero _ _ _ (fun _ => rfl)]
  rfl

/-- Fact: a direct-mode run of any length fetches cluster membership exactly
once, at startup before the first cycle. -/
theorem mainTrace_single_fetch (startupNodes : List String) (localIP : String)
    (frequency : Nat) (probe : Nat → String → Except ProbeError String)
    (numCycles : Nat) :
    (mainTrace startupNodes localIP frequency probe numCycles).countP
      isMembershipEvent = 1 := by
  have hz : (List.flatten ((List.range numCycles).map fun k =>
      cycleEvents (peerSetForCycle startupNodes k) localIP frequency (probe k))).countP
        isMembershipEvent = 0 := by
    refine countP_flatten_zero _ _ ?_
    intro l hl
    rcases List.mem_map.mp hl with ⟨k, _, rfl⟩
    exact cycleEvents_no_membership _ _ _ _
  simp [mainTrace, List.countP_cons, hz, isMembershipEvent]

/-- Fact: iterating the direct-run loop any number of times always continues
to the next iteration; no pass exits the loop. -/
theorem runLoop_next (nodes : List String) (localIP : String) (frequency : Nat)
    (probe : Nat → String → Except ProbeError String) (k : Nat) :
    runLoop nodes localIP frequency probe k = LoopStep.next k := by
  induction k with
  | zero => rfl
  | succ k ih => simp [runLoop, ih, directLoopBody]

/-- Fact: every cycle's events end with the inter-cycle sleep of `frequency`
seconds, measured after the report of the completed cycle. -/
theorem cycleEvents_getLast (nodes : List String) (localIP : String)
    (frequency : Nat) (probe : String → Except ProbeError String) :
    (cycleEvents nodes localIP frequency probe).getLast?
      = some (Event.sleep frequency) := by
  simp only [cycleEvents]
  exact List.getLast?_concat _

/-- C3 (amended): membership is fetched exactly once, at startup; no later
cycle performs a membership fetch, so a steady-state membership-fetch
failure cannot occur and no fetch error is ever reported after startup;
every cycle — cycle 5 included — reuses the startup peer set (hence cycle
5's peer set equals cycle 4's), and the loop never exits on its own. -/
theorem scheduler_reuses_startup_peers (startupNodes : List String)
    (localIP : String) (frequency : Nat)
    (probe : Nat → String → Except ProbeError String) (numCycles k : Nat) :
    peerSetForCycle startupNodes (k + 1) = peerSetForCycle startupNodes k
    ∧ (cycleEvents (peerSetForCycle startupNodes k) localIP frequency
        (probe k)).countP isMembershipEvent = 0
    ∧ (mainTrace startupNodes localIP frequency probe numCycles).countP
        isMembershipEvent = 1
    ∧ runLoop startupNodes localIP frequency probe k = LoopStep.next k :=
  ⟨rfl, cycleEvents_no_membership _ _ _ _,
    mainTrace_single_fetch startupNodes localIP frequency probe numCycles,
    runLoop_next startupNodes localIP frequency probe k⟩

/-- Counterexample to C3 as stated: in a concrete six-cycle direct-mode
trace the only membership-source interaction is the single startup fetch —
cycle 5's events contain no membership fetch and no reported fetch failure,
so the membership source cannot fail on cycle 5 and no membership-fetch
error is reported there, contrary to the claimed scenario. -/
theorem scheduler_cycle5_no_fetch_cex :
    (mainTrace ["10.0.0.1", "10.0.0.3"] "10.0.0.2" 3
        (fun _ _ => Except.ok "1 packets transmitted") 6).countP
      isMembershipEvent = 1
    ∧ (cycleEvents (peerSetForCycle ["10.0.0.1", "10.0.0.3"] 5) "10.0.0.2" 3
        (fun _ => Except.ok "1 packets transmitted")).countP
      isMembershipEvent = 0 := by
  constructor <;> rfl

/-- C7: in direct mode (`-r`) the scheduler loop never terminates on its
own: after every completed cycle it emits the `frequency`-second sleep as
its last event (the cadence is measured from the end of the cycle) and
continues to the next iteration, for every number of iterations, in both the
concurrent and the simple variant. -/
theorem directLoop_runs_forever (nodes : List String) (localIP : String)
    (frequency : Nat) (probe : Nat → String → Except ProbeError String)
    (k : Nat) :
    mainMode true = RunMode.directLoopMode
    ∧ runLoop nodes localIP frequency probe k = LoopStep.next k
    ∧ directLoopBody nodes localIP frequency (probe k) k = LoopStep.next (k + 1)
    ∧ (cycleEvents nodes localIP frequency (probe k)).getLast?
        = some (Event.sleep frequency)
    ∧ simpleLoopBody nodes localIP frequency k = LoopStep.next (k + 1) :=
  ⟨rfl, runLoop_next nodes localIP frequency probe k, rfl,
    cycleEvents_getLast nodes localIP frequency (probe k), rfl⟩

/-- C9: in the concurrent variant the reporting step emits all successful
probe outputs before any failure errors: whatever arrival order the
concurrent probes gave the two channels, every `results` log event precedes
every `errs` log event in the report. -/
theorem report_successes_before_failures (resultsChan : List String)
    (errsChan : List ProbeError) (i j : Nat)
    (hi : i < (reportEvents resultsChan errsChan).length)
    (hj : j < (reportEvents resultsChan errsChan).length)
    (hsi : isLogResult ((reportEvents resultsChan errsChan).get ⟨i, hi⟩) = true)
    (hej : isLogPingFailed ((reportEvents resultsChan errsChan).get ⟨j, hj⟩) = true) :
    i < j := by
  by_cases hiA : i < resultsChan.length
  · by_contra hlt
    push_neg at hlt
    have hjA : j < resultsChan.length := lt_of_le_of_lt hlt hiA
    have hjm : j < (resultsChan.map Event.logResult).length := by simpa using hjA
    have hfalse : isLogPingFailed ((reportEvents resultsChan errsChan).get ⟨j, hj⟩)
        = false := by
      show isLogPingFailed ((resultsChan.map Event.logResult
          ++ errsChan.map Event.logPingFailed).get ⟨j, hj⟩) = false
      rw [List.get_eq_getElem, List.getElem_append_left hjm, List.getElem_map]
      rfl
    rw [hfalse] at hej
    cases hej
  · exfalso
    push_neg at hiA
    have him : (resultsChan.map Event.logResult).length ≤ i := by simpa using hiA
    have hfalse : isLogResult ((reportEvents resultsChan errsChan).get ⟨i, hi⟩)
        = false := by
      show isLogResult ((resultsChan.map Event.logResult
          ++ errsChan.map Event.logPingFailed).get ⟨i, hi⟩) = false
      rw [List.get_eq_getElem, List.getElem_append_right him, List.getElem_map]
      rfl
    rw [hfalse] at hsi
    cases hsi

/-- Witness for C9 at a one-success one-failure report. -/
theorem report_successes_before_failures_witness :
    isLogResult ((reportEvents ["64 bytes from peer"] [ProbeError.unreachable]).get
        ⟨0, by decide⟩) = true
    ∧ (0 : Nat) < 1 :=
  ⟨rfl,
    report_successes_before_failures ["64 bytes from peer"] [ProbeError.unreachable]
      0 1 (by decide) (by decide) rfl rfl⟩

/-- Fact: a non-empty string has a non-empty character list. -/
theorem data_ne_nil_of_ne_empty (s : String) (h : s ≠ "") : s.data ≠ [] := by
  intro hd
  exact h (String.ext_iff.mpr (by rw [hd]))

/-- Fact: for a space-free non-empty interface name and peer address, the
shell tokenization of the concurrent variant's ping command is exactly
`ping -I <interface> -c 1 -W 5 <node>`. -/
theorem fields_pingCmd (interfaceName node : String)
    (hi : ∀ c ∈ interfaceName.data, isSpaceChar c = false)
    (hine : interfaceName ≠ "")
    (hn : ∀ c ∈ node.data, isSpaceChar c = false) (hnne : node ≠ "") :
    fields (pingCmd interfaceName node)
      = ["ping", "-I", interfaceName, "-c", "1", "-W", "5", node] := by
  have hidata := data_ne_nil_of_ne_empty interfaceName hine
  have hndata := data_ne_nil_of_ne_empty node hnne
  have hL : (pingCmd interfaceName node).data
      = 'p' :: 'i' :: 'n' :: 'g' :: ' ' :: '-' :: 'I' :: ' ' ::
        (interfaceName.data ++ (' ' :: '-' :: 'c' :: ' ' :: '1' :: ' ' :: '-' :: 'W'
          :: ' ' :: '5' :: ' ' :: node.data)) := by
    have d0 : toString pingTimeout = "5" := rfl
    have d1 : "ping -I ".data = ['p','i','n','g',' ','-','I',' '] := rfl
    have d2 : " -c 1 -W ".data = [' ','-','c',' ','1',' ','-','W',' '] := rfl
    have d3 : ("5" : String).data = ['5'] := rfl
    have d4 : " ".data = [' '] := rfl
    simp [pingCmd, String.data_append, d0, d1, d2, d3, d4]
  have e1 : fieldsAux ((pingCmd interfaceName node).data) []
      = ['p','i','n','g'] :: fieldsAux ('-' :: 'I' :: ' ' ::
          (interfaceName.data ++ (' ' :: '-' :: 'c' :: ' ' :: '1' :: ' ' :: '-' :: 'W'
            :: ' ' :: '5' :: ' ' :: node.data))) [] := by
    rw [hL]
    exact fieldsAux_word_space ['p','i','n','g'] _ (by decide) (by decide)
  have e2 : fieldsAux ('-' :: 'I' :: ' ' ::
        (interfaceName.data ++ (' ' :: '-' :: 'c' :: ' ' :: '1' :: ' ' :: '-' :: 'W'
          :: ' ' :: '5' :: ' ' :: node.data))) []
      = ['-','I'] :: fieldsAux (interfaceName.data ++ (' ' :: '-' :: 'c' :: ' ' :: '1'
          :: ' ' :: '-' :: 'W' :: ' ' :: '5' :: ' ' :: node.data)) [] :=
    fieldsAux_word_space ['-','I'] _ (by decide) (by decide)
  have e3 : fieldsAux (interfaceName.data ++ (' ' :: '-' :: 'c' :: ' ' :: '1' :: ' '
        :: '-' :: 'W' :: ' ' :: '5' :: ' ' :: node.data)) []
      = interfaceName.data :: fieldsAux ('-' :: 'c' :: ' ' :: '1' :: ' ' :: '-' :: 'W'
          :: ' ' :: '5' :: ' ' :: node.data) [] :=
    fieldsAux_word_space interfaceName.data _ hi hidata
  have e4 : fieldsAux ('-' :: 'c' :: ' ' :: '1' :: ' ' :: '-' :: 'W' :: ' ' :: '5'
        :: ' ' :: node.data) []
      = ['-','c'] :: fieldsAux ('1' :: ' ' :: '-' :: 'W' :: ' ' :: '5' :: ' '
          :: node.data) [] :=
    fieldsAux_word_space ['-','c'] _ (by decide) (by decide)
  have e5 : fieldsAux ('1' :: ' ' :: '-' :: 'W' :: ' ' :: '5' :: ' ' :: node.data) []
      = ['1'] :: fieldsAux ('-' :: 'W' :: ' ' :: '5' :: ' ' :: node.data) [] :=
    fieldsAux_word_space ['1'] _ (by decide) (by decide)
  have e6 : fieldsAux ('-' :: 'W' :: ' ' :: '5' :: ' ' :: node.data) []
      = ['-','W'] :: fieldsAux ('5' :: ' ' :: node.data) [] :=
    fieldsAux_word_space ['-','W'] _ (by decide) (by decide)
  have e7 : fieldsAux ('5' :: ' ' :: node.data) []
      = ['5'] :: fieldsAux node.data [] :=
    fieldsAux_word_space ['5'] _ (by decide) (by decide)
  have e8 : fieldsAux node.data [] = [node.data] :=
    fieldsAux_word_end node.data hn hndata
  simp only [fields]
  rw [e1, e2, e3, e4, e5, e6, e7, e8]
  rfl

/-- Fact: for a space-free non-empty interface name and peer address, the
shell tokenization of the simple variant's ping command is exactly
`ping -I <interface> -c 1 <node>`. -/
theorem fields_pingCmdSimple (interfaceName node : String)
    (hi : ∀ c ∈ interfaceName.data, isSpaceChar c = false)
    (hine : interfaceName ≠ "")
    (hn : ∀ c ∈ node.data, isSpaceChar c = false) (hnne : node ≠ "") :
    fields (pingCmdSimple interfaceName node)
      = ["ping", "-I", interfaceName, "-c", "1", node] := by
  have hidata := data_ne_nil_of_ne_empty interfaceName hine
  have hndata := data_ne_nil_of_ne_empty node hnne
  have hL : (pingCmdSimple interfaceName node).data
      = 'p' :: 'i' :: 'n' :: 'g' :: ' ' :: '-' :: 'I' :: ' ' ::
        (interfaceName.data ++ (' ' :: '-' :: 'c' :: ' ' :: '1' :: ' '
          :: node.data)) := by
    have d1 : "ping -I ".data = ['p','i','n','g',' ','-','I',' '] := rfl
    have d2 : " -c 1 ".data = [' ','-','c',' ','1',' '] := rfl
    simp [pingCmdSimple, String.data_append, d1, d2]
  have e1 : fieldsAux ((pingCmdSimple interfaceName node).data) []
      = ['p','i','n','g'] :: fieldsAux ('-' :: 'I' :: ' ' ::
          (interfaceName.data ++ (' ' :: '-' :: 'c' :: ' ' :: '1' :: ' '
            :: node.data))) [] := by
    rw [hL]
    exact fieldsAux_word_space ['p','i','n','g'] _ (by decide) (by decide)
  have e2 : fieldsAux ('-' :: 'I' :: ' ' ::
        (interfaceName.data ++ (' ' :: '-' :: 'c' :: ' ' :: '1' :: ' '
          :: node.data))) []
      = ['-','I'] :: fieldsAux (interfaceName.data ++ (' ' :: '-' :: 'c' :: ' '
          :: '1' :: ' ' :: node.data)) [] :=
    fieldsAux_word_space ['-','I'] _ (by decide) (by decide)
  have e3 : fieldsAux (interfaceName.data ++ (' ' :: '-' :: 'c' :: ' ' :: '1' :: ' '
        :: node.data)) []
      = interfaceName.data :: fieldsAux ('-' :: 'c' :: ' ' :: '1' :: ' '
          :: node.data) [] :=
    fieldsAux_word_space interfaceName.data _ hi hidata
  have e4 : fieldsAux ('-' :: 'c' :: ' ' :: '1' :: ' ' :: node.data) []
      = ['-','c'] :: fieldsAux ('1' :: ' ' :: node.data) [] :=
    fieldsAux_word_space ['-','c'] _ (by decide) (by decide)
  have e5 : fieldsAux ('1' :: ' ' :: node.data) []
      = ['1'] :: fieldsAux node.data [] :=
    fieldsAux_word_space ['1'] _ (by decide) (by decide)
  have e6 : fieldsAux node.data [] = [node.data] :=
    fieldsAux_word_end node.data hn hndata
  simp only [fields]
  rw [e1, e2, e3, e4, e5, e6]
  rfl

/-- C8: every probe issued by `pingNode` is a single-shot probe: for any
space-free interface name (itself not the literal `-c`) and any space-free
peer address, the constructed ping command tokenizes with a count argument
of exactly `1` (`-c 1`), scoped to the given interface (`-I <interface>`),
in both the concurrent and the simple variant — never a continuous or
repeated ping stream. -/
theorem pingCmd_single_packet (interfaceName node : String)
    (hi : ∀ c ∈ interfaceName.data, isSpaceChar c = false)
    (hine : interfaceName ≠ "") (hic : interfaceName ≠ "-c")
    (hn : ∀ c ∈ node.data, isSpaceChar c = false) (hnne : node ≠ "") :
    fields (pingCmd interfaceName node)
        = ["ping", "-I", interfaceName, "-c", "1", "-W", "5", node]
    ∧ argAfter "-c" (fields (pingCmd interfaceName node)) = some "1"
    ∧ fields (pingCmdSimple interfaceName node)
        = ["ping", "-I", interfaceName, "-c", "1", node]
    ∧ argAfter "-c" (fields (pingCmdSimple interfaceName node)) = some "1" := by
  have hf := fields_pingCmd interfaceName node hi hine hn hnne
  have hfs := fields_pingCmdSimple interfaceName node hi hine hn hnne
  have h1 : ¬ ("ping" : String) = "-c" := by decide
  have h2 : ¬ ("-I" : String) = "-c" := by decide
  refine ⟨hf, ?_, hfs, ?_⟩
  · rw [hf]
    simp [argAfter, h1, h2, hic]
  · rw [hfs]
    simp [argAfter, h1, h2, hic]

/-- Witness for C8 at a concrete interface and peer. -/
theorem pingCmd_single_packet_witness :
    (∀ c ∈ ("eth0" : String).data, isSpaceChar c = false)
    ∧ (fields (pingCmd "eth0" "10.0.0.8")
          = ["ping", "-I", "eth0", "-c", "1", "-W", "5", "10.0.0.8"]
        ∧ argAfter "-c" (fields (pingCmd "eth0" "10.0.0.8")) = some "1"
        ∧ fields (pingCmdSimple "eth0" "10.0.0.8")
          = ["ping", "-I", "eth0", "-c", "1", "10.0.0.8"]
        ∧ argAfter "-c" (fields (pingCmdSimple "eth0" "10.0.0.8")) = some "1") :=
  ⟨by decide,
    pingCmd_single_packet "eth0" "10.0.0.8" (by decide) (by decide) (by decide)
      (by decide) (by decide)⟩

end NetworkMonitor
